import Mathlib

/-!
Verification development for the `com_terminal` repository: a shallow
embedding, in Lean, of the serial-terminal prototypes' pure logic
(hex codec, UTF-8 handling of received chunks, the `iced` update
handlers of `src/main.rs`, `src/bin/claude_com2.rs`, `src/bin/com_gpt.rs`,
and the port-enumeration and file helpers), together with theorems about
the behaviour the repository's specification describes.

Bytes are modelled as `Nat` values below 256, Unicode scalar values as
`Nat`, Rust `String`s as Lean `String`s, and fallible operations as
`Option`/`Except`.  Effects (bytes written to the device handle, files
written) are made explicit as returned values; results of external I/O
(read results, write outcomes, dialog choices) are injected as
parameters, so every definition is executable.
-/

deriving instance DecidableEq for Except

namespace ComSpec

/-! ## UTF-8 encoding and Rust's `String::from_utf8_lossy`

`src/main.rs` (line 327) and `src/bin/claude_com2.rs` (line 272) turn the
bytes of a successful read into a `String` via `String::from_utf8_lossy`,
so the payload a data-received event carries is the UTF-8 re-encoding of
the lossy decoding of the chunk, not necessarily the raw chunk bytes.
We embed the exact algorithm of Rust's standard library: maximal invalid
subparts are each replaced by U+FFFD, with the continuation-byte ranges
of `core::str::validations` (second-byte restrictions for 0xE0, 0xED,
0xF0, 0xF4), and an incomplete sequence at the end of input yielding a
single U+FFFD. -/

/-- UTF-8 encoding of one Unicode scalar value (as Rust's `String` stores
its `char`s). -/
def utf8EncodeChar (c : Nat) : List Nat :=
  if c < 0x80 then [c]
  else if c < 0x800 then [0xC0 + c / 0x40, 0x80 + c % 0x40]
  else if c < 0x10000 then
    [0xE0 + c / 0x1000, 0x80 + (c / 0x40) % 0x40, 0x80 + c % 0x40]
  else
    [0xF0 + c / 0x40000, 0x80 + (c / 0x1000) % 0x40,
     0x80 + (c / 0x40) % 0x40, 0x80 + c % 0x40]

/-- UTF-8 encoding of a sequence of Unicode scalar values. -/
def utf8Encode (cs : List Nat) : List Nat :=
  (cs.map utf8EncodeChar).flatten

/-- A UTF-8 continuation byte, `0x80 ..= 0xBF`. -/
def isCont (b : Nat) : Bool := 0x80 ≤ b && b ≤ 0xBF

/-- Valid range of the second byte of a multi-byte UTF-8 sequence whose
first byte is `b` (Rust `core::str::validations::run_utf8_validation`):
`0xE0` requires `0xA0..=0xBF`, `0xED` requires `0x80..=0x9F` (no
surrogates), `0xF0` requires `0x90..=0xBF`, `0xF4` requires
`0x80..=0x8F`, every other leading byte requires `0x80..=0xBF`. -/
def isSecondByteOk (b c : Nat) : Bool :=
  if b = 0xE0 then 0xA0 ≤ c && c ≤ 0xBF
  else if b = 0xED then 0x80 ≤ c && c ≤ 0x9F
  else if b = 0xF0 then 0x90 ≤ c && c ≤ 0xBF
  else if b = 0xF4 then 0x80 ≤ c && c ≤ 0x8F
  else isCont c

/-- Fuel-indexed worker for the lossy UTF-8 decoder; every step consumes
at least one input byte, so `fuel = length` suffices and the fuel only
serves to make the recursion structural. -/
def utf8LossyGo : Nat → List Nat → List Nat
  | 0, _ => []
  | _ + 1, [] => []
  | fuel + 1, b :: rest =>
    if b < 0x80 then b :: utf8LossyGo fuel rest
    else if b < 0xC2 then 0xFFFD :: utf8LossyGo fuel rest
    else if b < 0xE0 then
      match rest with
      | [] => [0xFFFD]
      | c :: rest2 =>
        if isCont c then
          ((b - 0xC0) * 0x40 + (c - 0x80)) :: utf8LossyGo fuel rest2
        else 0xFFFD :: utf8LossyGo fuel rest
    else if b < 0xF0 then
      match rest with
      | [] => [0xFFFD]
      | c :: rest2 =>
        if isSecondByteOk b c then
          match rest2 with
          | [] => [0xFFFD]
          | d :: rest3 =>
            if isCont d then
              ((b - 0xE0) * 0x1000 + (c - 0x80) * 0x40 + (d - 0x80)) ::
                utf8LossyGo fuel rest3
            else 0xFFFD :: utf8LossyGo fuel rest2
        else 0xFFFD :: utf8LossyGo fuel rest
    else if b < 0xF5 then
      match rest with
      | [] => [0xFFFD]
      | c :: rest2 =>
        if isSecondByteOk b c then
          match rest2 with
          | [] => [0xFFFD]
          | d :: rest3 =>
            if isCont d then
              match rest3 with
              | [] => [0xFFFD]
              | e :: rest4 =>
                if isCont e then
                  ((b - 0xF0) * 0x40000 + (c - 0x80) * 0x1000 +
                      (d - 0x80) * 0x40 + (e - 0x80)) :: utf8LossyGo fuel rest4
                else 0xFFFD :: utf8LossyGo fuel rest3
            else 0xFFFD :: utf8LossyGo fuel rest2
        else 0xFFFD :: utf8LossyGo fuel rest
    else 0xFFFD :: utf8LossyGo fuel rest

/-- Rust's `String::from_utf8_lossy`, as a function from bytes to the
decoded Unicode scalar values. -/
def utf8DecodeLossy (bs : List Nat) : List Nat :=
  utf8LossyGo bs.length bs

/-- A Lean `String` from a list of Unicode scalar values (the output of
`utf8DecodeLossy` is always a list of valid scalar values). -/
def codepointsToString (cs : List Nat) : String :=
  ⟨cs.map Char.ofNat⟩

/-- The bytes of a Rust `String` (`str::as_bytes` / `String::len`
count UTF-8 bytes). -/
def strBytes (s : String) : List Nat :=
  (s.data.map (fun c => utf8EncodeChar c.toNat)).flatten

/-- The byte payload a data-received event carries once its `String` is
viewed as UTF-8 again: re-encoding of the lossy decoding of the chunk. -/
def lossyBytes (chunk : List Nat) : List Nat :=
  strBytes (codepointsToString (utf8DecodeLossy chunk))

/-! ## The hex codec of `src/hex.rs` -/

/-- `src/hex.rs:4`: `format!("{:02X}", b)` digit (uppercase). -/
def hexDigitUpper (n : Nat) : Char :=
  Char.ofNat (if n < 10 then 48 + n else 55 + n)

/-- The two-character rendering `format!("{:02X}", b)` of one byte. -/
def toHex2 (b : Nat) : List Char :=
  [hexDigitUpper (b / 16), hexDigitUpper (b % 16)]

/-- `Vec::join(" ")` on character lists, as used in `bytes_to_hex`. -/
def joinSpace : List (List Char) → List Char
  | [] => []
  | [x] => x
  | x :: y :: xs => x ++ ' ' :: joinSpace (y :: xs)

/-- `src/hex.rs:1-7`: `bytes_to_hex` renders each byte as two uppercase
hex digits and joins the pairs with single spaces. -/
def bytes_to_hex (bs : List Nat) : List Char :=
  joinSpace (bs.map toHex2)

/-- Rust `char::is_whitespace` (the Unicode `White_Space` property), the
splitting predicate of `str::split_whitespace` used in `hex_to_bytes`. -/
def rustIsWhitespace (c : Char) : Bool :=
  let n := c.toNat
  (9 ≤ n && n ≤ 13) || n = 32 || n = 0x85 || n = 0xA0 || n = 0x1680 ||
    (0x2000 ≤ n && n ≤ 0x200A) || n = 0x2028 || n = 0x2029 ||
    n = 0x202F || n = 0x205F || n = 0x3000

/-- `src/hex.rs:10`: `s.split_whitespace().collect::<Vec<_>>().join("")`
removes every whitespace character. -/
def cleanedHex (s : List Char) : List Char :=
  s.filter (fun c => !rustIsWhitespace c)

/-- The numeric value `u8::from_str_radix` assigns delegated per digit:
`0-9`, `A-F`, `a-f`. -/
def hexVal (c : Char) : Option Nat :=
  let n := c.toNat
  if 48 ≤ n ∧ n ≤ 57 then some (n - 48)
  else if 65 ≤ n ∧ n ≤ 70 then some (n - 55)
  else if 97 ≤ n ∧ n ≤ 102 then some (n - 87)
  else none

/-- Rust `u8::from_str_radix(s, 16)` on a two-character string `s`:
either two hex digits, or a leading `+` sign followed by one hex digit
(Rust's integer parsers accept an optional leading `+`). -/
def fromStrRadix16 (c1 c2 : Char) : Option Nat :=
  match hexVal c1, hexVal c2 with
  | some v1, some v2 => some (16 * v1 + v2)
  | none, some v2 => if c1 = '+' then some v2 else none
  | _, _ => none

/-- The pairwise parse of `src/hex.rs:14-17`: each two-character slice
goes through `u8::from_str_radix(_, 16)` and the `collect` over
`Result` stops at the first failure (the `ParseIntError` rendering is
`"invalid digit found in string"`). -/
def parseHexPairs : List Char → Except String (List Nat)
  | [] => .ok []
  | [_] => .error "invalid digit found in string"
  | c1 :: c2 :: rest =>
    match fromStrRadix16 c1 c2 with
    | some v =>
      match parseHexPairs rest with
      | .ok vs => .ok (v :: vs)
      | .error e => .error e
    | none => .error "invalid digit found in string"

/-- `src/hex.rs:9-18`: `hex_to_bytes` — strip whitespace, reject odd
length with `"Odd length"`, parse the character pairs.  (The Rust code
slices the cleaned string at byte offsets; on purely ASCII input, which
is the scope of the theorems below, byte offsets and character offsets
coincide.) -/
def hex_to_bytes (s : List Char) : Except String (List Nat) :=
  let cl := cleanedHex s
  if cl.length % 2 ≠ 0 then .error "Odd length"
  else parseHexPairs cl

/-- Whether a `hex_to_bytes` result is the error case. -/
def isHexErr (r : Except String (List Nat)) : Bool :=
  match r with
  | .error _ => true
  | .ok _ => false

/-- Specification-side notion of a hexadecimal digit character. -/
def isHexDigitChar (c : Char) : Bool :=
  (48 ≤ c.toNat && c.toNat ≤ 57) || (65 ≤ c.toNat && c.toNat ≤ 70) ||
    (97 ≤ c.toNat && c.toNat ≤ 102)

/-- Specification-side characterisation of the two-character groups
`u8::from_str_radix(_, 16)` accepts: two hex digits, or `+` followed by
a hex digit. -/
def acceptedPair (c1 c2 : Char) : Bool :=
  (isHexDigitChar c1 && isHexDigitChar c2) || (c1 = '+' && isHexDigitChar c2)

/-- Specification-side scan for a rejected two-character group (a
dangling final character counts as rejected; it can only arise from
odd-length input). -/
def someBadPair : List Char → Bool
  | [] => false
  | [_] => true
  | c1 :: c2 :: rest => !acceptedPair c1 c2 || someBadPair rest



/-! ## Result of one `SerialPort::read` attempt

Read attempts are performed against the OS handle; their outcomes are
injected into the model.  `errTimedOut` is `ErrorKind::TimedOut`; every
other `io::Error` is `errOther` carrying its rendered message. -/

inductive ReadResult where
  | ok (chunk : List Nat)
  | errTimedOut
  | errOther (e : String)
deriving DecidableEq, Repr

/-! ## The `iced` application of `src/main.rs` (`Terminal`)

State fields irrelevant to the claims (port pick lists, baud lists,
scroll id, UI selections) are omitted; `port : Option<Arc<Mutex<...>>>`
is modelled by the Boolean `portOpen` (whether the handle is held), the
write side of the handle by explicit byte-list effects. -/

structure TermState where
  log : List String
  portOpen : Bool
  showRecvMark : Bool
  inputText : String
  filePath : String
deriving DecidableEq, Repr

/-- The messages of `src/main.rs` that the claims exercise, as delivered
to `Terminal::update`.  `SerialDataReceived` and `SerialError` are the
messages the read subscription emits; `NoOp` is its quiet outcome. -/
inductive Msg where
  | noOp
  | serialDataReceived (data : String)
  | serialError (e : String)
  | disconnectClicked
  | portsFoundErr (e : String)
deriving DecidableEq, Repr

/-- `Terminal::update` (`src/main.rs:123-299`) on the modelled messages.
Each of these branches returns `Command::none()` (or a scroll command),
so the state transition is the whole effect:
* `NoOp` — no change (line 297);
* `SerialDataReceived` — append the data to the log, with the `"> "`
  mark iff `show_received_prefix` (lines 268-275);
* `SerialError` — append the error line and drop the handle,
  `self.port = None` (lines 286-290);
* `DisconnectClicked` — drop the handle and log the closed notice
  (lines 186-190);
* `PortsFound(Err(e))` — log the enumeration failure (lines 133-136). -/
def update (s : TermState) (m : Msg) : TermState :=
  match m with
  | .noOp => s
  | .serialDataReceived d =>
    { s with log := s.log ++ [if s.showRecvMark then "> " ++ d else d] }
  | .serialError e =>
    { s with log := s.log ++ ["Ошибка COM-порта: " ++ e], portOpen := false }
  | .disconnectClicked =>
    { s with portOpen := false, log := s.log ++ ["Соединение закрыто."] }
  | .portsFoundErr e =>
    { s with log := s.log ++ ["Ошибка при поиске портов: " ++ e] }

/-- One step of the read subscription of `src/main.rs:302-349`
(`iced::subscription::unfold`): one `port.read(&mut buf)` attempt
produces exactly one message and the unfold continues with the same
port —
* `Ok(n)` with `n > 0`: `SerialDataReceived(from_utf8_lossy(buf[..n]))`;
* `Ok(0)`: `NoOp`;
* `Err(TimedOut)`: `NoOp` (line 338-339);
* any other `Err`: `SerialError(e.to_string())` (line 342). -/
def subStep (r : ReadResult) : Msg :=
  match r with
  | .ok chunk =>
    if 0 < chunk.length then
      .serialDataReceived (codepointsToString (utf8DecodeLossy chunk))
    else .noOp
  | .errTimedOut => .noOp
  | .errOther e => .serialError e

/-- The message trace of the subscription over a finite sequence of read
attempts: the unfold emits exactly one message per attempt, in attempt
order. -/
def subTrace (rs : List ReadResult) : List Msg :=
  rs.map subStep

/-- The byte payload of a data-received message (the UTF-8 bytes of the
`String` it carries); `none` for every other message. -/
def payloadBytes (m : Msg) : Option (List Nat) :=
  match m with
  | .serialDataReceived d => some (strBytes d)
  | _ => none

/-- Whether a message is a data-received event. -/
def isDataMsg (m : Msg) : Bool :=
  match m with
  | .serialDataReceived _ => true
  | _ => false

/-- Whether a message is an error event. -/
def isErrMsg (m : Msg) : Bool :=
  match m with
  | .serialError _ => true
  | _ => false

/-- The subscription of `src/main.rs:304` exists only while the handle
is held: `if let Some(port_arc) = &self.port`. -/
def subscriptionActive (s : TermState) : Bool :=
  s.portOpen

/-- `Message::InputSubmitted` (`src/main.rs:242-267`) with the outcome
of the spawned `write_all` injected (`none` = `Ok`, `some e` = the
rendered I/O error).  Returns the new state, the byte buffers that
reached the handle, and the follow-up messages the command produces.
With a port: log `"< " ++ input`, clear the input, perform one
`write_all(input.as_bytes())` — per its contract the whole buffer is
accepted (one complete trace entry) or an error is returned, in which
case the follow-up message is `SerialError`.  Without a port: log the
not-open notice only. -/
def inputSubmittedStep (s : TermState) (outcome : Option String) :
    TermState × List (List Nat) × List Msg :=
  if s.portOpen then
    ({ s with log := s.log ++ ["< " ++ s.inputText], inputText := "" },
     match outcome with
     | none => [strBytes s.inputText]
     | some _ => [],
     match outcome with
     | none => [.noOp]
     | some e => [.serialError e])
  else
    ({ s with log := s.log ++ ["Ошибка: Порт не открыт."] }, [], [])

/-- One send request from the UI: the text typed (delivered by
`Message::InputChanged`) and the injected `write_all` outcome. -/
structure SubmitCall where
  input : String
  failMsg : Option String
deriving DecidableEq, Repr

/-- A sequence of send requests processed in submission order: each sets
the input text (`InputChanged`) and submits (`InputSubmitted`),
accumulating the buffers that reached the handle and the follow-up
messages. -/
def submitRun (s : TermState) : List SubmitCall → TermState × List (List Nat) × List Msg
  | [] => (s, [], [])
  | call :: rest =>
    let step := inputSubmittedStep { s with inputText := call.input } call.failMsg
    let further := submitRun step.1 rest
    (further.1, step.2.1 ++ further.2.1, step.2.2 ++ further.2.2)

/-- `Message::SaveLogClicked` (`src/main.rs:196-204`) with the result of
`std::fs::write` injected: the attempted write is always to the fixed
path `"com_log.txt"` with content `log.join("\n")`, and the log gains
the success or failure notice. -/
def saveLogStep (s : TermState) (fsErr : Option String) :
    TermState × String × String :=
  let content := String.intercalate "\n" s.log
  ({ s with log := s.log ++
      [match fsErr with
       | none => "Лог сохранён в com_log.txt"
       | some e => "Ошибка сохранения: " ++ e] },
   "com_log.txt", content)

/-! ## Port enumeration: `src/serial.rs:6-11` and `src/main.rs:547-551`

The OS answer to `serialport::available_ports()` is injected as an
`Except`; the error payload is already rendered to a string. -/

/-- A `serialport::SerialPortInfo`, reduced to the field the code
uses. -/
structure PortInfo where
  portName : String
deriving DecidableEq, Repr

/-- `src/serial.rs:6-11` `list_ports`: map to names, recover any
enumeration error as the empty list. -/
def list_ports (r : Except String (List PortInfo)) : List String :=
  match r with
  | .ok ps => ps.map (fun p => p.portName)
  | .error _ => []

/-- `src/main.rs:547-551` `find_ports`: map to names but propagate the
enumeration error (`map_err(|e| e.to_string())`). -/
def find_ports (r : Except String (List PortInfo)) :
    Except String (List String) :=
  match r with
  | .ok ps => .ok (ps.map (fun p => p.portName))
  | .error e => .error e

/-! ## File helpers: `src/file.rs` and `src/bin/com_gpt.rs` -/

/-- `src/file.rs:11-17` `save_file_blocking`, with the dialog choice
injected: `some (path, content)` is the performed `std::fs::write`;
`none` (dialog cancelled) writes nothing and succeeds. -/
def saveFileBlocking (choice : Option String) (content : String) :
    Option (String × String) :=
  match choice with
  | some p => some (p, content)
  | none => none

/-- `src/file.rs:3-9` `open_file_blocking`, with the dialog choice and
the file's contents injected: a chosen file's contents are returned
unchanged, a cancelled dialog yields the empty string. -/
def openFileBlocking (choice : Option String) : String :=
  match choice with
  | some contents => contents
  | none => ""

/-- The slice of `src/bin/com_gpt.rs` state the file claims touch. -/
structure GptState where
  terminal : String
  input : String
  portPresent : Bool
deriving DecidableEq, Repr

/-- `Message::FileLoaded` (`src/bin/com_gpt.rs:298-301`): the loaded
file contents replace the outgoing input buffer unchanged. -/
def gptFileLoaded (t : String) (g : GptState) : GptState :=
  { g with input := t }

/-! ## The `iced` application of `src/bin/claude_com2.rs`

`ComTerminal`, restricted to the fields the claims touch; the
`serial_port : Option<Arc<Mutex<...>>>` handle is the Boolean
`portPresent`, `port_settings.connected` is `connected`. -/

structure C2State where
  output : List String
  sentBytes : Nat
  receivedBytes : Nat
  connected : Bool
  portPresent : Bool
  inputText : String
deriving DecidableEq, Repr

/-- `Message::SendData` (`src/bin/claude_com2.rs:154-175`) with the
`write_all` outcome injected.  When the input is non-empty and
`connected`: log `">>> " ++ data`, bump `sent_bytes` by the byte length
of the input, then (if a handle is present) write and log the outcome —
note the counter is bumped before and regardless of the write's
outcome — and finally clear the input.  Otherwise: nothing at all. -/
def c2SendData (outcome : Option String) (s : C2State) : C2State :=
  if !s.inputText.isEmpty && s.connected then
    let data := s.inputText
    let s1 := { s with
      output := s.output ++ [">>> " ++ data],
      sentBytes := s.sentBytes + (strBytes data).length }
    let s2 :=
      if s1.portPresent then
        match outcome with
        | none => { s1 with output := s1.output ++ ["✓ Данные отправлены"] }
        | some e =>
          { s1 with output := s1.output ++ ["❌ Ошибка отправки данных: " ++ e] }
      else s1
    { s2 with inputText := "" }
  else s

/-- `Message::Tick` (`src/bin/claude_com2.rs:263-286`) with the read
outcome injected.  With a handle present, one `read` attempt:
* `Ok(n)`, `n > 0` — log `"<- " ++ from_utf8_lossy(..)` and bump
  `received_bytes` by the length of that string;
* `Ok(0)` or `Err(TimedOut)` — nothing;
* any other `Err` — log the read-error line; the handle is kept,
  `connected` stays `true`, and nothing stops subsequent ticks. -/
def c2Tick (r : ReadResult) (s : C2State) : C2State :=
  if s.portPresent then
    match r with
    | .ok chunk =>
      if 0 < chunk.length then
        let dataStr := codepointsToString (utf8DecodeLossy chunk)
        { s with output := s.output ++ ["<- " ++ dataStr],
                 receivedBytes := s.receivedBytes + (strBytes dataStr).length }
      else s
    | .errTimedOut => s
    | .errOther e =>
      { s with output := s.output ++ ["❌ Ошибка чтения из порта: " ++ e] }
  else s

/-! ## Strict UTF-8 decoding (`String::from_utf8`) and the
`com_gemini.rs` read loop

`src/bin/com_gemini.rs:357-376` (`handle_serial_read`) forwards a
successful read only through `if let Ok(s) = String::from_utf8(...)`:
a chunk that is not valid UTF-8 produces no event at all.  We embed the
strict decoder with the same branch structure as the lossy one; it
fails (`none`) exactly where the lossy decoder would substitute
U+FFFD. -/

/-- Fuel-indexed worker for the strict UTF-8 decoder
(`String::from_utf8`): `some` of the decoded scalar values on valid
input, `none` on any invalid or incomplete sequence.  Every step
consumes at least one input byte, so `fuel = length` suffices. -/
def utf8StrictGo : Nat → List Nat → Option (List Nat)
  | 0, [] => some []
  | 0, _ :: _ => none
  | _ + 1, [] => some []
  | fuel + 1, b :: rest =>
    if b < 0x80 then (utf8StrictGo fuel rest).map (b :: ·)
    else if b < 0xC2 then none
    else if b < 0xE0 then
      match rest with
      | [] => none
      | c :: rest2 =>
        if isCont c then
          (utf8StrictGo fuel rest2).map (((b - 0xC0) * 0x40 + (c - 0x80)) :: ·)
        else none
    else if b < 0xF0 then
      match rest with
      | [] => none
      | c :: rest2 =>
        if isSecondByteOk b c then
          match rest2 with
          | [] => none
          | d :: rest3 =>
            if isCont d then
              (utf8StrictGo fuel rest3).map
                (((b - 0xE0) * 0x1000 + (c - 0x80) * 0x40 + (d - 0x80)) :: ·)
            else none
        else none
    else if b < 0xF5 then
      match rest with
      | [] => none
      | c :: rest2 =>
        if isSecondByteOk b c then
          match rest2 with
          | [] => none
          | d :: rest3 =>
            if isCont d then
              match rest3 with
              | [] => none
              | e :: rest4 =>
                if isCont e then
                  (utf8StrictGo fuel rest4).map
                    (((b - 0xF0) * 0x40000 + (c - 0x80) * 0x1000 +
                        (d - 0x80) * 0x40 + (e - 0x80)) :: ·)
                else none
            else none
        else none
    else none

/-- Rust's `String::from_utf8`, as a partial function from bytes to the
decoded Unicode scalar values. -/
def utf8DecodeStrict (bs : List Nat) : Option (List Nat) :=
  utf8StrictGo bs.length bs

/-- The per-read gate of `com_gemini.rs:360-365`: a chunk is forwarded
only when `bytes_read > 0` and `String::from_utf8` succeeds; the sent
`String`'s scalar values are the decoded ones (so its bytes are their
UTF-8 encoding). -/
def geminiGate (chunk : List Nat) : Option (List Nat) :=
  if 0 < chunk.length then utf8DecodeStrict chunk else none

/-- The data events `handle_serial_read` sends over its channel for a
finite sequence of successful reads (timeouts send nothing and
continue; the error branch is outside a successful-read trace): at most
one event per read, in read order, and none for a chunk the gate
drops. -/
def geminiTrace (rs : List (List Nat)) : List (List Nat) :=
  rs.filterMap geminiGate

/-! ## The `iced` application of `src/bin/com_term.rs`

`ComTerminal` of `com_term.rs`, restricted to the fields the send path
touches.  Its `ConnectPort` handler (lines 230-349) moves the opened
port into the spawned reader thread and never assigns
`self.serial_port` (which is set only to `None`, at lines 135 and 353),
and although it stores a write channel in `self.write_tx` (line 246),
no code ever sends on that channel. -/

structure CTState where
  output : List String
  sentBytes : Nat
  connected : Bool
  serialPort : Bool
  writeTx : Bool
  inputText : String
  portName : String
  baudRate : Nat
deriving DecidableEq, Repr

/-- `Message::ConnectPort` of `com_term.rs:230-349` when the open
succeeds: sets `connected`, stores the channels, logs the connect
notice — and leaves `serial_port` untouched (the port itself moves into
the spawned thread). -/
def ctConnectPort (s : CTState) : CTState :=
  { s with
    connected := true,
    writeTx := true,
    output := s.output ++
      ["✓ Підключений до " ++ s.portName ++ " на " ++
        toString s.baudRate ++ " baud"] }

/-- `Message::SendData` of `com_term.rs:197-217` with the `write_all`
outcome injected for the case a handle were present.  Non-empty input
while `connected`: log the echo, bump `sent_bytes` by the input's byte
length, then `if let Some(port) = &self.serial_port` write and log the
outcome — otherwise skip the write entirely, with no error — and clear
the input.  Returns the new state and the buffers that reached the
device. -/
def ctSendData (outcome : Option String) (s : CTState) :
    CTState × List (List Nat) :=
  if !s.inputText.isEmpty && s.connected then
    let data := s.inputText
    let s1 := { s with
      output := s.output ++ [">>> " ++ data],
      sentBytes := s.sentBytes + (strBytes data).length }
    let stepTwo :=
      if s1.serialPort then
        (match outcome with
         | none =>
           ({ s1 with output := s1.output ++ ["✓ Данні відправлені"] },
            [strBytes data])
         | some e =>
           ({ s1 with
               output := s1.output ++ ["✗ Помилка відправлення данних: " ++ e] },
            []))
      else (s1, [])
    ({ stepTwo.1 with inputText := "" }, stepTwo.2)
  else (s, [])

/-! ## Theorems -/

/-- Helper: `inputSubmittedStep` never changes whether the handle is
held. -/
theorem inputSubmittedStep_portOpen (s : TermState) (o : Option String) :
    (inputSubmittedStep s o).1.portOpen = s.portOpen := by
  unfold inputSubmittedStep
  split <;> rfl

/-- Helper: the connected branch of `Message::InputSubmitted`. -/
theorem inputSubmittedStep_open (s : TermState) (o : Option String)
    (h : s.portOpen = true) :
    inputSubmittedStep s o =
      ({ s with log := s.log ++ ["< " ++ s.inputText], inputText := "" },
       (match o with | none => [strBytes s.inputText] | some _ => []),
       (match o with | none => [Msg.noOp] | some e => [Msg.serialError e])) := by
  unfold inputSubmittedStep
  rw [if_pos h]

/-- C3, counterexample: in `src/bin/claude_com2.rs` a non-timeout read
error does not tear the session down — after an error tick `connected`
is still `true` and the handle is still held, and a second tick performs
another read attempt and logs a second error line, so one failing read
is followed by further attempts and further error events. -/
theorem c3_counterexample :
    (c2Tick (.errOther "device disconnected")
        ⟨[], 0, 0, true, true, ""⟩).connected = true ∧
    (c2Tick (.errOther "device disconnected")
        ⟨[], 0, 0, true, true, ""⟩).portPresent = true ∧
    ((c2Tick (.errOther "device disconnected")
        (c2Tick (.errOther "device disconnected")
          ⟨[], 0, 0, true, true, ""⟩)).output.count
      "❌ Ошибка чтения из порта: device disconnected") = 2 := by
  decide

/-- C3 (amended): in `src/main.rs` a non-timeout read error makes the
subscription emit exactly the one `SerialError` message for that read,
and the `SerialError` handler drops the handle (`port = None`), which
both releases the session and deactivates the read subscription, so no
further read attempt is made and there is no retry — the same
connection state `DisconnectClicked` produces. -/
theorem c3_main_error_teardown (s : TermState) (e : String) :
    subStep (.errOther e) = Msg.serialError e ∧
    (update s (.serialError e)).portOpen = false ∧
    subscriptionActive (update s (.serialError e)) = false ∧
    (update s (.serialError e)).portOpen =
      (update s .disconnectClicked).portOpen :=
  ⟨rfl, rfl, rfl, rfl⟩

/-- C4: any number of consecutive timed-out read attempts produces only
`NoOp` messages — zero data-received events, zero error events — and
processing those messages leaves the state (hence the active
subscription, i.e. the retrying read loop) exactly as it was. -/
theorem c4_timeouts_silent (k : Nat) (s : TermState) :
    (subTrace (List.replicate k .errTimedOut)).countP isDataMsg = 0 ∧
    (subTrace (List.replicate k .errTimedOut)).countP isErrMsg = 0 ∧
    (subTrace (List.replicate k .errTimedOut)).foldl update s = s := by
  refine ⟨?_, ?_, ?_⟩
  · rw [List.countP_eq_zero]
    intro m hm
    rw [subTrace, List.map_replicate, List.mem_replicate] at hm
    rw [hm.2]
    decide
  · rw [List.countP_eq_zero]
    intro m hm
    rw [subTrace, List.map_replicate, List.mem_replicate] at hm
    rw [hm.2]
    decide
  · rw [subTrace, List.map_replicate]
    induction k with
    | zero => rfl
    | succ n ih => rw [List.replicate_succ, List.foldl_cons]; exact ih

/-- C5, counterexample: submitting input while no port is open does
mutate the program state in `src/main.rs` — the log gains the
`"Ошибка: Порт не открыт."` line, so the state is not left entirely
unchanged (and no distinguished `NotConnectedError` value exists, only
this log line). -/
theorem c5_counterexample :
    (inputSubmittedStep ⟨[], false, true, "hello", ""⟩ none).1.log =
      ["Ошибка: Порт не открыт."] ∧
    (inputSubmittedStep ⟨[], false, true, "hello", ""⟩ none).1 ≠
      ⟨[], false, true, "hello", ""⟩ := by
  decide

/-- C5 (amended): submitting while not connected writes no bytes to any
handle, emits no follow-up message, and changes nothing except
appending the single `"Ошибка: Порт не открыт."` notice to the log —
the connection state, input text, and every other field are
untouched. -/
theorem c5_send_unconnected (s : TermState) (o : Option String)
    (h : s.portOpen = false) :
    inputSubmittedStep s o =
      ({ s with log := s.log ++ ["Ошибка: Порт не открыт."] }, [], []) := by
  unfold inputSubmittedStep
  rw [if_neg]
  rw [h]
  exact Bool.false_ne_true

/-- C5, witness: the amended statement at a concrete unconnected
state. -/
theorem c5_send_unconnected_witness :
    inputSubmittedStep ⟨["a"], false, false, "hi", "f"⟩ (some "E") =
      (⟨["a", "Ошибка: Порт не открыт."], false, false, "hi", "f"⟩, [], []) :=
  c5_send_unconnected ⟨["a"], false, false, "hi", "f"⟩ (some "E") rfl

/-- C6, counterexample: `DisconnectClicked` in `src/main.rs`
unconditionally appends the `"Соединение закрыто."` notice, so two
disconnects in a row produce two disconnected events, not one; and
disconnecting when nothing is connected is not a no-op — it also
appends the notice. -/
theorem c6_counterexample :
    ((update (update ⟨[], true, true, "", ""⟩ .disconnectClicked)
        .disconnectClicked).log.count "Соединение закрыто.") = 2 ∧
    update ⟨["x"], false, true, "", ""⟩ .disconnectClicked ≠
      ⟨["x"], false, true, "", ""⟩ := by
  decide

/-- C6 (amended): every `DisconnectClicked` drops the handle, appends
exactly one `"Соединение закрыто."` notice, and produces no error — in
particular disconnect is idempotent on the connection state (a second
call changes nothing but appending one more notice), and calling it
when not connected is safe, differing from a no-op only by that log
line. -/
theorem c6_disconnect (s : TermState) :
    (update s .disconnectClicked).portOpen = false ∧
    (update s .disconnectClicked).log = s.log ++ ["Соединение закрыто."] ∧
    update (update s .disconnectClicked) .disconnectClicked =
      { update s .disconnectClicked with
        log := (update s .disconnectClicked).log ++ ["Соединение закрыто."] } :=
  ⟨rfl, rfl, rfl⟩

/-- C7, counterexample: `find_ports` in `src/main.rs` propagates the
enumeration failure instead of recovering it as an empty list, and the
`PortsFound(Err(..))` handler surfaces it as a distinct log line. -/
theorem c7_counterexample :
    find_ports (.error "Permission denied") = .error "Permission denied" ∧
    find_ports (.error "Permission denied") ≠ .ok [] ∧
    (update ⟨[], false, true, "", ""⟩
        (.portsFoundErr "Permission denied")).log =
      ["Ошибка при поиске портов: Permission denied"] := by
  decide

/-- C7 (amended): `src/serial.rs::list_ports` recovers every enumeration
error as the empty list — indistinguishable from a successful empty
enumeration — while `src/main.rs::find_ports` propagates the error
string and its `PortsFound(Err(..))` handler logs it as a distinct
error line. -/
theorem c7_enumeration (e : String) (ps : List PortInfo) (s : TermState) :
    list_ports (.error e) = [] ∧
    list_ports (.error e) = list_ports (.ok []) ∧
    find_ports (.error e) = .error e ∧
    (update s (.portsFoundErr e)).log =
      s.log ++ ["Ошибка при поиске портов: " ++ e] ∧
    list_ports (.ok ps) = ps.map (fun p => p.portName) :=
  ⟨rfl, rfl, rfl, rfl, rfl⟩

/-- C8, counterexample: `SaveLogClicked` in `src/main.rs` always writes
to the fixed path `"com_log.txt"`, ignoring the user's path field. -/
theorem c8_counterexample :
    (saveLogStep ⟨["line1"], true, true, "", "C:/chosen/by_user.txt"⟩
        none).2.1 = "com_log.txt" ∧
    "com_log.txt" ≠ "C:/chosen/by_user.txt" := by
  decide

/-- C8 (amended): on save-log the accumulated display lines are written
unchanged and in order (joined with newlines) but to the fixed path
`com_log.txt`; the `src/file.rs` helper does write given content
unchanged to a dialog-chosen path (and writes nothing on cancel); and
on open-file the chosen file's contents become the outgoing input
buffer unchanged (`src/bin/com_gpt.rs` `FileLoaded`). -/
theorem c8_persistence (s : TermState) (r : Option String)
    (p c t : String) (g : GptState) :
    (saveLogStep s r).2 = ("com_log.txt", String.intercalate "\n" s.log) ∧
    saveFileBlocking (some p) c = some (p, c) ∧
    saveFileBlocking none c = none ∧
    openFileBlocking (some c) = c ∧
    (gptFileLoaded t g).input = t :=
  ⟨rfl, rfl, rfl, rfl, rfl⟩

/-- C10: in `src/bin/claude_com2.rs`, `SendData` with non-empty input on
a connected session bumps `sent_bytes` by the byte length of the input
whatever the write outcome is — the counter counts submitted bytes, not
bytes confirmed written. -/
theorem c10_sent_counter (s : C2State) (o : Option String)
    (h1 : s.inputText.isEmpty = false) (h2 : s.connected = true) :
    (c2SendData o s).sentBytes = s.sentBytes + (strBytes s.inputText).length := by
  unfold c2SendData
  rw [if_pos (by rw [h1, h2]; rfl)]
  cases hp : s.portPresent <;> cases o <;> simp

/-- C10, witness: a failing write still bumps the counter from 5 by the
two bytes of `"Hi"`. -/
theorem c10_sent_counter_witness :
    (c2SendData (some "write failed") ⟨[], 5, 0, true, true, "Hi"⟩).sentBytes = 7 :=
  c10_sent_counter ⟨[], 5, 0, true, true, "Hi"⟩ (some "write failed") rfl rfl

/-- Helper: `utf8Encode` on a cons. -/
theorem utf8Encode_cons (c : Nat) (cs : List Nat) :
    utf8Encode (c :: cs) = utf8EncodeChar c ++ utf8Encode cs := by
  simp [utf8Encode]

/-- Helper: re-encoding a two-byte sequence's scalar value. -/
theorem utf8EncodeChar_two (b c : Nat) (hb : 0xC2 ≤ b ∧ b ≤ 0xDF)
    (hc : 0x80 ≤ c ∧ c ≤ 0xBF) :
    utf8EncodeChar ((b - 0xC0) * 0x40 + (c - 0x80)) = [b, c] := by
  obtain ⟨hb1, hb2⟩ := hb
  obtain ⟨hc1, hc2⟩ := hc
  rw [utf8EncodeChar, if_neg (by omega), if_pos (by omega)]
  have e1 : 0xC0 + ((b - 0xC0) * 0x40 + (c - 0x80)) / 0x40 = b := by omega
  have e2 : 0x80 + ((b - 0xC0) * 0x40 + (c - 0x80)) % 0x40 = c := by omega
  rw [e1, e2]

/-- Helper: re-encoding a three-byte sequence's scalar value. -/
theorem utf8EncodeChar_three (b c d : Nat) (hb : 0xE0 ≤ b ∧ b ≤ 0xEF)
    (hc : 0x80 ≤ c ∧ c ≤ 0xBF) (hd : 0x80 ≤ d ∧ d ≤ 0xBF)
    (hmin : 0x800 ≤ (b - 0xE0) * 0x1000 + (c - 0x80) * 0x40 + (d - 0x80)) :
    utf8EncodeChar ((b - 0xE0) * 0x1000 + (c - 0x80) * 0x40 + (d - 0x80)) =
      [b, c, d] := by
  obtain ⟨hb1, hb2⟩ := hb
  obtain ⟨hc1, hc2⟩ := hc
  obtain ⟨hd1, hd2⟩ := hd
  rw [utf8EncodeChar, if_neg (by omega), if_neg (by omega), if_pos (by omega)]
  have e1 : 0xE0 + ((b - 0xE0) * 0x1000 + (c - 0x80) * 0x40 + (d - 0x80)) /
      0x1000 = b := by omega
  have eq2 : ((b - 0xE0) * 0x1000 + (c - 0x80) * 0x40 + (d - 0x80)) / 0x40 =
      (b - 0xE0) * 0x40 + (c - 0x80) := by omega
  have e2 : 0x80 + ((b - 0xE0) * 0x40 + (c - 0x80)) % 0x40 = c := by omega
  have e3 : 0x80 + ((b - 0xE0) * 0x1000 + (c - 0x80) * 0x40 + (d - 0x80)) %
      0x40 = d := by omega
  rw [e1, eq2, e2, e3]

/-- Helper: re-encoding a four-byte sequence's scalar value. -/
theorem utf8EncodeChar_four (b c d e : Nat) (hb : 0xF0 ≤ b ∧ b ≤ 0xF4)
    (hc : 0x80 ≤ c ∧ c ≤ 0xBF) (hd : 0x80 ≤ d ∧ d ≤ 0xBF)
    (he : 0x80 ≤ e ∧ e ≤ 0xBF)
    (hmin : 0x10000 ≤ (b - 0xF0) * 0x40000 + (c - 0x80) * 0x1000 +
      (d - 0x80) * 0x40 + (e - 0x80)) :
    utf8EncodeChar ((b - 0xF0) * 0x40000 + (c - 0x80) * 0x1000 +
        (d - 0x80) * 0x40 + (e - 0x80)) = [b, c, d, e] := by
  obtain ⟨hb1, hb2⟩ := hb
  obtain ⟨hc1, hc2⟩ := hc
  obtain ⟨hd1, hd2⟩ := hd
  obtain ⟨he1, he2⟩ := he
  rw [utf8EncodeChar, if_neg (by omega), if_neg (by omega), if_neg (by omega)]
  have e1 : 0xF0 + ((b - 0xF0) * 0x40000 + (c - 0x80) * 0x1000 +
      (d - 0x80) * 0x40 + (e - 0x80)) / 0x40000 = b := by omega
  have eq2 : ((b - 0xF0) * 0x40000 + (c - 0x80) * 0x1000 +
      (d - 0x80) * 0x40 + (e - 0x80)) / 0x1000 =
      (b - 0xF0) * 0x40 + (c - 0x80) := by omega
  have e2 : 0x80 + ((b - 0xF0) * 0x40 + (c - 0x80)) % 0x40 = c := by omega
  have eq3 : ((b - 0xF0) * 0x40000 + (c - 0x80) * 0x1000 +
      (d - 0x80) * 0x40 + (e - 0x80)) / 0x40 =
      (b - 0xF0) * 0x1000 + (c - 0x80) * 0x40 + (d - 0x80) := by omega
  have e3 : 0x80 + ((b - 0xF0) * 0x1000 + (c - 0x80) * 0x40 + (d - 0x80)) %
      0x40 = d := by omega
  have e4 : 0x80 + ((b - 0xF0) * 0x40000 + (c - 0x80) * 0x1000 +
      (d - 0x80) * 0x40 + (e - 0x80)) % 0x40 = e := by omega
  rw [e1, eq2, e2, eq3, e3, e4]

/-- Helper: whatever the strict UTF-8 decoder accepts re-encodes to the
exact input bytes (`String::from_utf8` is byte-preserving). -/
theorem utf8StrictGo_encode (fuel : Nat) :
    ∀ bs cps, utf8StrictGo fuel bs = some cps → utf8Encode cps = bs := by
  induction fuel with
  | zero =>
    intro bs cps h
    cases bs with
    | nil =>
      simp only [utf8StrictGo] at h
      cases h
      rfl
    | cons b rest =>
      simp only [utf8StrictGo] at h
      cases h
  | succ n ih =>
    intro bs cps h
    cases bs with
    | nil =>
      simp only [utf8StrictGo] at h
      cases h
      rfl
    | cons b rest =>
      simp only [utf8StrictGo] at h
      by_cases h1 : b < 0x80
      · rw [if_pos h1] at h
        obtain ⟨cps1, hgo, hcons⟩ := Option.map_eq_some'.mp h
        subst hcons
        rw [utf8Encode_cons, ih rest cps1 hgo, utf8EncodeChar, if_pos h1]
        rfl
      · rw [if_neg h1] at h
        by_cases h2 : b < 0xC2
        · rw [if_pos h2] at h
          cases h
        · rw [if_neg h2] at h
          by_cases h3 : b < 0xE0
          · rw [if_pos h3] at h
            cases rest with
            | nil => dsimp only [] at h; cases h
            | cons c rest2 =>
              dsimp only [] at h
              by_cases hcc : isCont c
              · rw [if_pos hcc] at h
                obtain ⟨cps1, hgo, hcons⟩ := Option.map_eq_some'.mp h
                subst hcons
                have hcr : 0x80 ≤ c ∧ c ≤ 0xBF := by simpa [isCont] using hcc
                rw [utf8Encode_cons, ih _ _ hgo,
                  utf8EncodeChar_two b c ⟨by omega, by omega⟩ hcr]
                rfl
              · rw [if_neg hcc] at h
                cases h
          · rw [if_neg h3] at h
            by_cases h4 : b < 0xF0
            · rw [if_pos h4] at h
              cases rest with
              | nil => dsimp only [] at h; cases h
              | cons c rest2 =>
                dsimp only [] at h
                by_cases hsec : isSecondByteOk b c
                · rw [if_pos hsec] at h
                  cases rest2 with
                  | nil => dsimp only [] at h; cases h
                  | cons d rest3 =>
                    dsimp only [] at h
                    by_cases hdd : isCont d
                    · rw [if_pos hdd] at h
                      obtain ⟨cps1, hgo, hcons⟩ := Option.map_eq_some'.mp h
                      subst hcons
                      have hdr : 0x80 ≤ d ∧ d ≤ 0xBF := by
                        simpa [isCont] using hdd
                      have hcr : (0x80 ≤ c ∧ c ≤ 0xBF) ∧
                          0x800 ≤ (b - 0xE0) * 0x1000 + (c - 0x80) * 0x40 +
                            (d - 0x80) := by
                        by_cases hb0 : b = 0xE0
                        · subst hb0
                          simp [isSecondByteOk] at hsec
                          exact ⟨⟨by omega, hsec.2⟩, by omega⟩
                        · by_cases hb1 : b = 0xED
                          · subst hb1
                            simp [isSecondByteOk] at hsec
                            exact ⟨⟨hsec.1, by omega⟩, by omega⟩
                          · have hbne0 : b ≠ 0xF0 := by omega
                            have hbne4 : b ≠ 0xF4 := by omega
                            simp [isSecondByteOk, isCont, hb0, hb1, hbne0,
                              hbne4] at hsec
                            exact ⟨hsec, by omega⟩
                      rw [utf8Encode_cons, ih _ _ hgo,
                        utf8EncodeChar_three b c d ⟨by omega, by omega⟩
                          hcr.1 hdr hcr.2]
                      rfl
                    · rw [if_neg hdd] at h
                      cases h
                · rw [if_neg hsec] at h
                  cases h
            · rw [if_neg h4] at h
              by_cases h5 : b < 0xF5
              · rw [if_pos h5] at h
                cases rest with
                | nil => dsimp only [] at h; cases h
                | cons c rest2 =>
                  dsimp only [] at h
                  by_cases hsec : isSecondByteOk b c
                  · rw [if_pos hsec] at h
                    cases rest2 with
                    | nil => dsimp only [] at h; cases h
                    | cons d rest3 =>
                      dsimp only [] at h
                      by_cases hdd : isCont d
                      · rw [if_pos hdd] at h
                        cases rest3 with
                        | nil => dsimp only [] at h; cases h
                        | cons e0 rest4 =>
                          dsimp only [] at h
                          by_cases hee : isCont e0
                          · rw [if_pos hee] at h
                            obtain ⟨cps1, hgo, hcons⟩ :=
                              Option.map_eq_some'.mp h
                            subst hcons
                            have hdr : 0x80 ≤ d ∧ d ≤ 0xBF := by
                              simpa [isCont] using hdd
                            have her : 0x80 ≤ e0 ∧ e0 ≤ 0xBF := by
                              simpa [isCont] using hee
                            have hcr : (0x80 ≤ c ∧ c ≤ 0xBF) ∧
                                0x10000 ≤ (b - 0xF0) * 0x40000 +
                                  (c - 0x80) * 0x1000 + (d - 0x80) * 0x40 +
                                  (e0 - 0x80) := by
                              by_cases hb0 : b = 0xF0
                              · subst hb0
                                simp [isSecondByteOk] at hsec
                                exact ⟨⟨by omega, hsec.2⟩, by omega⟩
                              · by_cases hb4 : b = 0xF4
                                · subst hb4
                                  simp [isSecondByteOk] at hsec
                                  exact ⟨⟨hsec.1, by omega⟩, by omega⟩
                                · have hbe : b ≠ 0xE0 := by omega
                                  have hbd : b ≠ 0xED := by omega
                                  simp [isSecondByteOk, isCont, hbe, hbd,
                                    hb0, hb4] at hsec
                                  exact ⟨hsec, by omega⟩
                            rw [utf8Encode_cons, ih _ _ hgo,
                              utf8EncodeChar_four b c d e0 ⟨by omega, by omega⟩
                                hcr.1 hdr her hcr.2]
                            rfl
                          · rw [if_neg hee] at h
                            cases h
                      · rw [if_neg hdd] at h
                        cases h
                  · rw [if_neg hsec] at h
                    cases h
              · rw [if_neg h5] at h
                cases h

/-- Helper: `String::from_utf8` preserves the bytes it accepts. -/
theorem utf8DecodeStrict_encode (bs cps : List Nat)
    (h : utf8DecodeStrict bs = some cps) : utf8Encode cps = bs :=
  utf8StrictGo_encode bs.length bs cps h

/-- Helper: the byte payloads of the events `handle_serial_read` sends
are exactly the non-empty, valid-UTF-8 chunks, in read order. -/
theorem geminiTrace_map_encode (rs : List (List Nat)) :
    (geminiTrace rs).map utf8Encode =
      rs.filter (fun c => decide (0 < c.length) && (utf8DecodeStrict c).isSome) := by
  induction rs with
  | nil => rfl
  | cons c rest ih =>
    rw [geminiTrace] at ih ⊢
    rw [List.filterMap_cons]
    by_cases h1 : 0 < c.length
    · cases hdec : utf8DecodeStrict c with
      | some cps =>
        have hg : geminiGate c = some cps := by simp [geminiGate, h1, hdec]
        rw [hg, List.map_cons, ih,
          List.filter_cons_of_pos (by simp [h1, hdec]),
          utf8DecodeStrict_encode c cps hdec]
      | none =>
        have hg : geminiGate c = none := by simp [geminiGate, h1, hdec]
        rw [hg, ih, List.filter_cons_of_neg (by simp [hdec])]
    · have hg : geminiGate c = none := by simp [geminiGate, h1]
      rw [hg, ih, List.filter_cons_of_neg (by simp [h1])]


/-- C1, counterexample: a successful read of the single byte `0xFF`
(not valid UTF-8) breaks the claim in both cited sources.  In
`src/main.rs` it emits exactly one data-received event, but the
`String` it carries is the replacement character, whose bytes are
`EF BF BD` — not the byte the read returned.  In
`src/bin/com_gemini.rs` the same read emits zero data-received events:
the `String::from_utf8` gate silently drops the chunk. -/
theorem c1_counterexample :
    payloadBytes (subStep (.ok [255])) = some [239, 191, 189] ∧
    some [239, 191, 189] ≠ some [255] ∧
    (subTrace [.ok [255]]).countP isDataMsg = 1 ∧
    geminiTrace [[255]] = [] := by
  decide

/-- Helper: the per-read payload extraction, fused over a chunk list. -/
theorem filterMap_payload_subStep (rs : List (List Nat)) :
    rs.filterMap (fun c => payloadBytes (subStep (.ok c))) =
      (rs.filter (fun c => decide (0 < c.length))).map lossyBytes := by
  induction rs with
  | nil => rfl
  | cons c rest ih =>
    by_cases hc : 0 < c.length
    · have hhead : payloadBytes (subStep (.ok c)) = some (lossyBytes c) := by
        simp [subStep, hc, payloadBytes, lossyBytes]
      rw [List.filterMap_cons, hhead, List.filter_cons_of_pos (by simpa using hc),
        List.map_cons, ih]
    · have hhead : payloadBytes (subStep (.ok c)) = none := by
        simp [subStep, hc, payloadBytes]
      rw [List.filterMap_cons, hhead, List.filter_cons_of_neg (by simpa using hc), ih]

/-- C1 (amended): over any sequence of successful reads — in
`src/main.rs`, each read that returns a non-empty chunk causes exactly
one data-received event, in read order, carrying the UTF-8 re-encoding
of the lossy decoding of the chunk's bytes (`String::from_utf8_lossy`),
so the concatenation of all event payloads equals the concatenation of
the lossy re-encodings of the chunks; in `src/bin/com_gemini.rs`, a
read that returns a non-empty chunk causes exactly one data-received
event carrying exactly those bytes when the chunk is valid UTF-8 and no
event at all otherwise, so the payloads there are exactly the non-empty
valid chunks in read order (their concatenation dropping the invalid
chunks); in both, reads that return zero bytes cause no data-received
event. -/
theorem c1_read_events (rs : List (List Nat)) :
    (subTrace (rs.map ReadResult.ok)).filterMap payloadBytes =
      (rs.filter (fun c => decide (0 < c.length))).map lossyBytes ∧
    ((subTrace (rs.map ReadResult.ok)).filterMap payloadBytes).flatten =
      ((rs.filter (fun c => decide (0 < c.length))).map lossyBytes).flatten ∧
    (geminiTrace rs).map utf8Encode =
      rs.filter (fun c => decide (0 < c.length) && (utf8DecodeStrict c).isSome) ∧
    ((geminiTrace rs).map utf8Encode).flatten =
      (rs.filter
        (fun c => decide (0 < c.length) && (utf8DecodeStrict c).isSome)).flatten := by
  have comp : (subTrace (rs.map ReadResult.ok)).filterMap payloadBytes =
      rs.filterMap (fun c => payloadBytes (subStep (.ok c))) := by
    rw [subTrace, List.map_map, List.filterMap_map]
    rfl
  have g := geminiTrace_map_encode rs
  refine ⟨?_, ?_, g, by rw [g]⟩
  · rw [comp, filterMap_payload_subStep]
  · rw [comp, filterMap_payload_subStep]

/-- C2, counterexample: in `src/bin/com_term.rs` a send while
`connected == true` silently drops the bytes.  After a successful
`ConnectPort` the state has `connected = true` but `serial_port` is
still `None` (the opened port was moved into the reader thread and the
stored write channel is never used), so `SendData` with input `"PING"`
writes nothing to the device, yet returns no error: the log gains only
the connect notice and the `>>> PING` echo (no error line), while
`sent_bytes` still advances by 4. -/
theorem c2_counterexample :
    (ctConnectPort ⟨[], 0, false, false, false, "", "COM3", 115200⟩).connected
      = true ∧
    (ctConnectPort ⟨[], 0, false, false, false, "", "COM3", 115200⟩).serialPort
      = false ∧
    (ctSendData none
      { ctConnectPort ⟨[], 0, false, false, false, "", "COM3", 115200⟩ with
        inputText := "PING" }).2 = [] ∧
    (ctSendData none
      { ctConnectPort ⟨[], 0, false, false, false, "", "COM3", 115200⟩ with
        inputText := "PING" }).1.output =
      ["✓ Підключений до COM3 на 115200 baud", ">>> PING"] ∧
    (ctSendData none
      { ctConnectPort ⟨[], 0, false, false, false, "", "COM3", 115200⟩ with
        inputText := "PING" }).1.sentBytes = 4 := by
  decide

/-- C2 (amended): in `src/main.rs`, submitting inputs while connected
sends each input's bytes to the handle as one complete `write_all`
buffer (all bytes accepted, or an error message is produced instead),
and the buffers of successive submissions reach the handle in
submission order with no splitting or merging: the device trace is
exactly the byte sequences of the successful submissions, in order, and
every failed submission yields its `SerialError` follow-up.  In
`src/bin/com_term.rs`, however, connecting never stores a handle
(`serial_port` is left as it was), and a send with non-empty input
while `connected == true` and no stored handle writes nothing to the
device and produces no error — the log gains only the echo line while
`sent_bytes` still advances by the input's byte length. -/
theorem c2_send_order (s : TermState) (calls : List SubmitCall)
    (ct : CTState) (o2 : Option String)
    (h : s.portOpen = true) (hct : ct.serialPort = false)
    (hne : ct.inputText.isEmpty = false) (hcon : ct.connected = true) :
    ((submitRun s calls).2.1 =
      (calls.filter (fun c => c.failMsg.isNone)).map
        (fun c => strBytes c.input) ∧
    (submitRun s calls).2.2 =
      calls.map (fun c =>
        match c.failMsg with
        | none => Msg.noOp
        | some e => Msg.serialError e)) ∧
    (ctConnectPort ct).serialPort = ct.serialPort ∧
    (ctSendData o2 ct).2 = [] ∧
    (ctSendData o2 ct).1.output = ct.output ++ [">>> " ++ ct.inputText] ∧
    (ctSendData o2 ct).1.sentBytes =
      ct.sentBytes + (strBytes ct.inputText).length := by
  have hcond : (!ct.inputText.isEmpty && ct.connected) = true := by
    rw [hne, hcon]
    rfl
  have hsend : ctSendData o2 ct =
      ({ ct with
          output := ct.output ++ [">>> " ++ ct.inputText],
          sentBytes := ct.sentBytes + (strBytes ct.inputText).length,
          inputText := "" }, []) := by
    simp [ctSendData, hcond, hct]
  refine ⟨?_, rfl, by rw [hsend], by rw [hsend], by rw [hsend]⟩
  induction calls generalizing s with
  | nil => exact ⟨rfl, rfl⟩
  | cons call rest ih =>
    have hstep := inputSubmittedStep_open
      { s with inputText := call.input } call.failMsg h
    have hopen : (inputSubmittedStep { s with inputText := call.input }
        call.failMsg).1.portOpen = true := by
      rw [inputSubmittedStep_portOpen]
      exact h
    obtain ⟨ihw, ihe⟩ := ih _ hopen
    rw [hstep] at ihw ihe
    simp only [submitRun]
    rw [hstep]
    cases hf : call.failMsg with
    | none => exact ⟨by simp [ihw, hf], by simp [ihe, hf]⟩
    | some e => exact ⟨by simp [ihw, hf], by simp [ihe, hf]⟩

/-- C2, witness: three submissions (the middle one failing) from a
connected `main.rs` state — the handle receives exactly the bytes of
`"AT"` and `"C"`, in order, and the failing one produces its error
message — together with a concrete handleless `com_term.rs` send that
writes nothing, logs only the echo, and still counts the four bytes of
`"PING"`. -/
theorem c2_send_order_witness :
    ((submitRun ⟨[], true, true, "", ""⟩
        [⟨"AT", none⟩, ⟨"B", some "boom"⟩, ⟨"C", none⟩]).2.1 =
      [[65, 84], [67]] ∧
    (submitRun ⟨[], true, true, "", ""⟩
        [⟨"AT", none⟩, ⟨"B", some "boom"⟩, ⟨"C", none⟩]).2.2 =
      [Msg.noOp, Msg.serialError "boom", Msg.noOp]) ∧
    (ctConnectPort ⟨["c"], 7, true, false, true, "PING", "COM9", 9600⟩).serialPort
      = false ∧
    (ctSendData (some "io")
      ⟨["c"], 7, true, false, true, "PING", "COM9", 9600⟩).2 = [] ∧
    (ctSendData (some "io")
      ⟨["c"], 7, true, false, true, "PING", "COM9", 9600⟩).1.output =
      ["c", ">>> PING"] ∧
    (ctSendData (some "io")
      ⟨["c"], 7, true, false, true, "PING", "COM9", 9600⟩).1.sentBytes = 11 :=
  c2_send_order ⟨[], true, true, "", ""⟩
    [⟨"AT", none⟩, ⟨"B", some "boom"⟩, ⟨"C", none⟩]
    ⟨["c"], 7, true, false, true, "PING", "COM9", 9600⟩ (some "io")
    rfl rfl rfl rfl

/-- Helper: each hex digit character parses back to its value. -/
theorem hexVal_hexDigitUpper : ∀ n < 16, hexVal (hexDigitUpper n) = some n := by
  decide

/-- Helper: hex digit characters are not whitespace. -/
theorem hexDigitUpper_not_ws : ∀ n < 16, rustIsWhitespace (hexDigitUpper n) = false := by
  decide

/-- Helper: the two-digit rendering of a byte parses back to the byte. -/
theorem fromStrRadix16_toHex2 (b : Nat) (hb : b < 256) :
    fromStrRadix16 (hexDigitUpper (b / 16)) (hexDigitUpper (b % 16)) = some b := by
  have h1 : b / 16 < 16 := by omega
  have h2 : b % 16 < 16 := by omega
  have e1 := hexVal_hexDigitUpper _ h1
  have e2 := hexVal_hexDigitUpper _ h2
  simp only [fromStrRadix16, e1, e2]
  exact congrArg some (Nat.div_add_mod b 16)

/-- Helper: stripping whitespace from a space-joined list of
whitespace-free groups yields their concatenation. -/
theorem cleanedHex_joinSpace (ll : List (List Char))
    (h : ∀ l ∈ ll, ∀ c ∈ l, rustIsWhitespace c = false) :
    cleanedHex (joinSpace ll) = ll.flatten := by
  induction ll with
  | nil => rfl
  | cons x xs ih =>
    have hx : x.filter (fun c => !rustIsWhitespace c) = x :=
      List.filter_eq_self.mpr (fun c hc => by
        rw [h x (List.mem_cons_self x xs) c hc]
        rfl)
    cases xs with
    | nil =>
      simp only [joinSpace, cleanedHex, List.flatten_cons, List.flatten_nil,
        List.append_nil]
      exact hx
    | cons y ys =>
      have ihr := ih (fun l hl => h l (List.mem_cons_of_mem x hl))
      rw [cleanedHex] at ihr
      simp only [joinSpace, cleanedHex, List.filter_append, List.filter_cons]
      rw [hx, ihr]
      simp [List.flatten_cons]
      decide

/-- Helper: both characters of a byte's rendering are non-whitespace. -/
theorem toHex2_no_ws (b : Nat) (hb : b < 256) :
    ∀ c ∈ toHex2 b, rustIsWhitespace c = false := by
  have h1 : b / 16 < 16 := by omega
  have h2 : b % 16 < 16 := by omega
  intro c hc
  rcases List.mem_cons.mp hc with rfl | hc2
  · exact hexDigitUpper_not_ws _ h1
  · rcases List.mem_cons.mp hc2 with rfl | hc3
    · exact hexDigitUpper_not_ws _ h2
    · cases hc3

/-- Helper: parsing the concatenated renderings recovers the bytes. -/
theorem parseHexPairs_flatten (bs : List Nat) (hb : ∀ b ∈ bs, b < 256) :
    parseHexPairs ((bs.map toHex2).flatten) = .ok bs := by
  induction bs with
  | nil => rfl
  | cons b rest ih =>
    have e := fromStrRadix16_toHex2 b (hb b (List.mem_cons_self b rest))
    have ihr := ih (fun x hx => hb x (List.mem_cons_of_mem b hx))
    simp only [List.map_cons, List.flatten_cons, toHex2, List.cons_append,
      List.nil_append]
    rw [parseHexPairs]
    simp only [e, ihr]

/-- Helper: the concatenated renderings have even length. -/
theorem flatten_toHex2_length (bs : List Nat) :
    ((bs.map toHex2).flatten).length % 2 = 0 := by
  induction bs with
  | nil => rfl
  | cons b rest ih =>
    simp only [List.map_cons, List.flatten_cons, List.length_append, toHex2,
      List.length_cons, List.length_nil] at *
    omega

/-- Helper: a character has a hex value exactly when it is a hex
digit. -/
theorem hexVal_isSome (c : Char) : (hexVal c).isSome = isHexDigitChar c := by
  simp only [hexVal, isHexDigitChar]
  split_ifs with h1 h2 h3 <;> simp_all

/-- Helper: `u8::from_str_radix(_, 16)` succeeds on a two-character
group exactly when the group is two hex digits or `+` followed by a hex
digit. -/
theorem fromStrRadix16_isSome (c1 c2 : Char) :
    (fromStrRadix16 c1 c2).isSome = acceptedPair c1 c2 := by
  rw [acceptedPair, ← hexVal_isSome, ← hexVal_isSome]
  cases h1 : hexVal c1 with
  | none =>
    cases h2 : hexVal c2 with
    | none => simp [fromStrRadix16, h1, h2]
    | some v2 =>
      by_cases hc : c1 = '+'
      · subst hc
        simp [fromStrRadix16, h1, h2]
      · simp [fromStrRadix16, h1, h2, hc]
  | some v1 =>
    cases h2 : hexVal c2 with
    | none => simp [fromStrRadix16, h1, h2]
    | some v2 => simp [fromStrRadix16, h1, h2]

/-- Helper: the pairwise parse fails exactly when the scan finds a
rejected group. -/
theorem parseErr_badPair : ∀ l : List Char, isHexErr (parseHexPairs l) = someBadPair l
  | [] => rfl
  | [_] => rfl
  | c1 :: c2 :: rest => by
    rw [parseHexPairs, someBadPair]
    cases hf : fromStrRadix16 c1 c2 with
    | none =>
      have ha : acceptedPair c1 c2 = false := by
        rw [← fromStrRadix16_isSome, hf]
        rfl
      simp [isHexErr, ha]
    | some v =>
      have ha : acceptedPair c1 c2 = true := by
        rw [← fromStrRadix16_isSome, hf]
        rfl
      have ih := parseErr_badPair rest
      cases hr : parseHexPairs rest with
      | ok vs =>
        have hrest : someBadPair rest = false := by
          rw [← ih, hr]
          rfl
        simp [isHexErr, ha, hrest]
      | error e =>
        have hrest : someBadPair rest = true := by
          rw [← ih, hr]
          rfl
        simp [isHexErr, ha, hrest]

/-- C9, counterexample: `hex_to_bytes "+A"` succeeds with `Ok([10])`
(because `u8::from_str_radix` accepts a leading `+`), although after
whitespace removal the input has even length and its only character
pair is not a pair of hex digits — so "error iff odd length or an
invalid hexadecimal pair", as claimed, is false. -/
theorem c9_counterexample :
    hex_to_bytes ['+', 'A'] = .ok [10] ∧
    isHexDigitChar '+' = false ∧
    cleanedHex ['+', 'A'] = ['+', 'A'] := by
  decide

/-- C9 (amended): for all byte sequences, `hex_to_bytes (bytes_to_hex b)
= Ok b`; and on ASCII input (where the Rust byte-offset slicing
coincides with this character model) `hex_to_bytes` errors exactly when
the whitespace-stripped input has odd length or contains a
two-character group that `u8::from_str_radix(_, 16)` rejects — i.e. one
that is neither two hexadecimal digits nor a `+` sign followed by one
hexadecimal digit. -/
theorem c9_hex_roundtrip_and_errors (bs : List Nat) (s : List Char)
    (hb : ∀ b ∈ bs, b < 256) (_hs : ∀ c ∈ s, c.toNat < 128) :
    hex_to_bytes (bytes_to_hex bs) = .ok bs ∧
    (isHexErr (hex_to_bytes s) = true ↔
      (cleanedHex s).length % 2 = 1 ∨ someBadPair (cleanedHex s) = true) := by
  constructor
  · have hclean : cleanedHex (joinSpace (bs.map toHex2)) = (bs.map toHex2).flatten :=
      cleanedHex_joinSpace _ (fun l hl => by
        rcases List.mem_map.mp hl with ⟨b, hbmem, rfl⟩
        exact toHex2_no_ws b (hb b hbmem))
    simp only [hex_to_bytes, bytes_to_hex]
    rw [hclean]
    rw [if_neg (fun hcon => hcon (flatten_toHex2_length bs))]
    exact parseHexPairs_flatten bs hb
  · have hp := parseErr_badPair (cleanedHex s)
    simp only [hex_to_bytes]
    by_cases hodd : (cleanedHex s).length % 2 ≠ 0
    · rw [if_pos hodd]
      simp only [isHexErr]
      constructor
      · intro _
        exact Or.inl (by omega)
      · intro _
        trivial
    · rw [if_neg hodd]
      rw [hp]
      have h1 : ¬((cleanedHex s).length % 2 = 1) := by omega
      simp [h1]

/-- C9, witness: the round trip at `[0, 171, 255]` and the error
characterisation at the ASCII input `"zz"`. -/
theorem c9_hex_witness :
    hex_to_bytes (bytes_to_hex [0, 171, 255]) = .ok [0, 171, 255] ∧
    (isHexErr (hex_to_bytes ['z', 'z']) = true ↔
      (cleanedHex ['z', 'z']).length % 2 = 1 ∨
        someBadPair (cleanedHex ['z', 'z']) = true) :=
  c9_hex_roundtrip_and_errors [0, 171, 255] ['z', 'z'] (by decide) (by decide)

end ComSpec
